import Mathlib

/-!
# eksctl `utils update-cluster-logging`: desired-set resolution and reconciliation

A shallow embedding of `pkg/ctl/utils/enable_logging.go`:

* `processTypesToEnable` (lines 121-140) resolves the `--enable-types` flag values
  into the list of log types to enable;
* `doEnableLogging` (lines 46-119) loads the configuration, probes the cluster,
  computes `shouldEnable`, `shouldDisable` and `updateRequired`, and either reports,
  plans or applies the change.

Go values are embedded as follows.

* `*[]string` is `Option (List String)` (`none` is the nil pointer).
* `error` is `GoError`; a function returning `(T, error)` is `Except GoError T`, a
  function returning `error` is `Option GoError` (`none` is `nil`).
* `sets.String` of `k8s.io/apimachinery/pkg/util/sets` (a `map[string]Empty`) is a
  `Finset String`; `List()` returns the keys sorted by `sort.Strings`, i.e. by the
  lexicographic order of the strings.
* The collaborators that live in other packages (`api`, `cmdutils`, `eks`, `printers`,
  `logger`) are fields of `Collaborators`; every call that is observable from outside
  is recorded, with its arguments, as an `Event` of the trace.
-/

namespace Eksctl

/-! ## Strings and their order -/

/-- Lexicographic comparison of two character sequences by code point; on valid UTF-8
this is the byte-wise comparison that Go uses for `string` values. -/
def lexLE : List Char → List Char → Bool
  | [], _ => true
  | _ :: _, [] => false
  | a :: as, b :: bs =>
    decide (a.toNat < b.toNat) || (decide (a.toNat = b.toNat) && lexLE as bs)

/-- The order `sort.Strings` sorts by: `a <= b` on Go strings. -/
def strLE (a b : String) : Bool := lexLE a.data b.data

/-- The relation `sort.Strings` sorts by, as a proposition. -/
def StrLE (a b : String) : Prop := strLE a b = true

instance instDecidableRelStrLE : DecidableRel StrLE :=
  fun a b => inferInstanceAs (Decidable (strLE a b = true))

/-- The function `sort.Strings`: the sorted rearrangement of a slice of strings. -/
def sortStrings (l : List String) : List String := l.insertionSort StrLE

/-- The function `strings.Join(elems, sep)`. -/
def stringsJoin (elems : List String) (sep : String) : String := sep.intercalate elems

/-! ## `sets.String` -/

/-- The type `sets.String`: a finite set of strings. -/
abbrev StringSet := Finset String

theorem lexLE_total (a b : List Char) : lexLE a b = true ∨ lexLE b a = true := by
  induction a generalizing b with
  | nil => left; cases b <;> rfl
  | cons x xs ih =>
    cases b with
    | nil => right; rfl
    | cons y ys =>
      simp only [lexLE, Bool.or_eq_true, Bool.and_eq_true, decide_eq_true_eq]
      rcases Nat.lt_trichotomy x.toNat y.toNat with h | h | h
      · exact Or.inl (Or.inl h)
      · rcases ih ys with h2 | h2
        · exact Or.inl (Or.inr ⟨h, h2⟩)
        · exact Or.inr (Or.inr ⟨h.symm, h2⟩)
      · exact Or.inr (Or.inl h)

theorem lexLE_trans (a b c : List Char) (hab : lexLE a b = true) (hbc : lexLE b c = true) :
    lexLE a c = true := by
  induction a generalizing b c with
  | nil => cases c <;> rfl
  | cons x xs ih =>
    cases b with
    | nil => simp [lexLE] at hab
    | cons y ys =>
      cases c with
      | nil => simp [lexLE] at hbc
      | cons z zs =>
        simp only [lexLE, Bool.or_eq_true, Bool.and_eq_true, decide_eq_true_eq] at hab hbc ⊢
        rcases hab with h1 | ⟨h1, h1t⟩
        · rcases hbc with h2 | ⟨h2, _⟩
          · exact Or.inl (by omega)
          · exact Or.inl (by omega)
        · rcases hbc with h2 | ⟨h2, h2t⟩
          · exact Or.inl (by omega)
          · exact Or.inr ⟨by omega, ih ys zs h1t h2t⟩

theorem char_eq_of_toNat_eq (x y : Char) (h : x.toNat = y.toNat) : x = y := by
  rw [← Char.ofNat_toNat x, ← Char.ofNat_toNat y, h]

theorem lexLE_antisymm (a b : List Char) (hab : lexLE a b = true) (hba : lexLE b a = true) :
    a = b := by
  induction a generalizing b with
  | nil =>
    cases b with
    | nil => rfl
    | cons y ys => simp [lexLE] at hba
  | cons x xs ih =>
    cases b with
    | nil => simp [lexLE] at hab
    | cons y ys =>
      simp only [lexLE, Bool.or_eq_true, Bool.and_eq_true, decide_eq_true_eq] at hab hba
      rcases hab with h1 | ⟨h1, h1t⟩
      · rcases hba with h2 | ⟨h2, _⟩ <;> omega
      · rcases hba with h2 | ⟨_, h2t⟩
        · omega
        · rw [char_eq_of_toNat_eq x y h1, ih ys h1t h2t]

instance instIsTotalStrLE : IsTotal String StrLE :=
  ⟨fun a b => lexLE_total a.data b.data⟩

instance instIsTransStrLE : IsTrans String StrLE :=
  ⟨fun a b c hab hbc => lexLE_trans a.data b.data c.data hab hbc⟩

instance instIsAntisymmStrLE : IsAntisymm String StrLE :=
  ⟨fun a b hab hba => by
    have h := lexLE_antisymm a.data b.data hab hba
    cases a; cases b; simp_all⟩

theorem sortStrings_perm (l : List String) : (sortStrings l).Perm l :=
  List.perm_insertionSort StrLE l

theorem sortStrings_sorted (l : List String) : (sortStrings l).Sorted StrLE :=
  List.sorted_insertionSort StrLE l

theorem sortStrings_congr (l₁ l₂ : List String) (h : l₁.Perm l₂) :
    sortStrings l₁ = sortStrings l₂ :=
  List.eq_of_perm_of_sorted
    (((sortStrings_perm l₁).trans h).trans (sortStrings_perm l₂).symm)
    (sortStrings_sorted l₁) (sortStrings_sorted l₂)

/-- The constructor `sets.NewString(items...)`. -/
def StringSet.NewString (items : List String) : StringSet :=
  items.foldl (fun s item => insert item s) ∅

/-- The method `Insert(items...)`. -/
def StringSet.Insert (s : StringSet) (items : List String) : StringSet :=
  items.foldl (fun acc item => insert item acc) s

/-- The method `Has(item)`. -/
def StringSet.Has (s : StringSet) (item : String) : Bool := decide (item ∈ s)

/-- The method `Difference(s2)`: the keys of `s` that `s2` does not have. -/
def StringSet.Difference (s s2 : StringSet) : StringSet :=
  s.filter (fun key => StringSet.Has s2 key = false)

/-- The method `IsSuperset(s2)`: every key of `s2` is a key of `s1`. -/
def StringSet.IsSuperset (s1 s2 : StringSet) : Bool :=
  decide (∀ item ∈ s2, StringSet.Has s1 item = true)

/-- The method `Equal(s2)`: `len(s1) == len(s2) && s1.IsSuperset(s2)`. -/
def StringSet.Equal (s1 s2 : StringSet) : Bool :=
  decide (s1.card = s2.card) && StringSet.IsSuperset s1 s2

/-- The method `List()`: the keys as a sorted slice. -/
def StringSet.List (s : StringSet) : List String :=
  Quot.liftOn s.val sortStrings sortStrings_congr

/-! ## The catalog and `processTypesToEnable` -/

/-- The type `error`; an error built by `fmt.Errorf` is its message. -/
abbrev GoError := String

deriving instance DecidableEq for Except

/-- Modelled from the spec: `api.SupportedCloudWatchClusterLogTypes()` is declared in
package `api`, which is not among the sources; the spec gives the catalog as
api, audit, authenticator, controllerManager, scheduler. The functions below take the
catalog as an argument, so that this value is only one possible instance. -/
def SupportedCloudWatchClusterLogTypes : List String :=
  ["api", "audit", "authenticator", "controllerManager", "scheduler"]

/-- The error of line 134:
`fmt.Errorf("unknown log type %s. Supported log types: %s", logType, strings.Join(catalog, ", "))`. -/
def unknownLogTypeError (catalog : List String) (logType : String) : GoError :=
  "unknown log type " ++ logType ++ ". Supported log types: " ++ stringsJoin catalog ", "

/-- The loop of lines 131-138 over the remaining flag values; `typesToEnable` is the set
built so far. It stops at the first value the catalog set does not have. -/
def processTypesLoop (catalog : List String) (allSupportedTypesSet : StringSet) :
    List String → StringSet → Except GoError StringSet
  | [], typesToEnable => .ok typesToEnable
  | logType :: rest, typesToEnable =>
    if StringSet.Has allSupportedTypesSet logType = false then
      .error (unknownLogTypeError catalog logType)
    else
      processTypesLoop catalog allSupportedTypesSet rest
        (StringSet.Insert typesToEnable [logType])

/-- The function `processTypesToEnable` (lines 121-140); `catalog` is what
`api.SupportedCloudWatchClusterLogTypes()` returns. -/
def processTypesToEnable (catalog : List String) (typesEnabled : Option (List String)) :
    Except GoError (List String) :=
  match typesEnabled with
  | none => .ok []
  | some types =>
    if types.length = 0 then .ok []
    else if types.length = 1 ∧ types.head? = some "all" then .ok catalog
    else
      match processTypesLoop catalog (StringSet.NewString catalog) types
          (StringSet.NewString []) with
      | .error err => .error err
      | .ok typesToEnable => .ok (StringSet.List typesToEnable)

/-! ## `doEnableLogging` -/

/-- The fields of `api.ClusterConfig` that `doEnableLogging` reads. -/
structure ClusterConfig where
  /-- The field `Metadata.Name`. -/
  Name : String
  /-- The field `Metadata.Region`. -/
  Region : String
  /-- The field `CloudWatch.ClusterLogging.EnableTypes`. -/
  EnableTypes : List String
  deriving DecidableEq, Repr

/-- The fields of `cmdutils.ResourceCmd` that `doEnableLogging` reads. -/
structure ResourceCmd where
  /-- The field `Plan`: true unless `--approve` was given. -/
  Plan : Bool
  /-- The field `ClusterConfig`. -/
  ClusterConfig : ClusterConfig
  deriving DecidableEq, Repr

/-- The calls of `doEnableLogging` that are visible from outside, with their arguments. -/
inductive Event where
  /-- The call `logger.Info("using region %s", meta.Region)`. -/
  | Info (region : String)
  /-- The call `printer.LogObj(logger.Debug, ..., cfg)`. -/
  | LogObj (cfg : ClusterConfig)
  /-- The call `cmdutils.LogIntendedAction(rc.Plan, ..., meta.Name, meta.Region,
  describeTypesToEnable, describeTypesToDisable)`. -/
  | LogIntendedAction (plan : Bool) (name region describeTypesToEnable
      describeTypesToDisable : String)
  /-- The call `ctl.UpdateClusterConfigForLogging(cfg)`. -/
  | UpdateClusterConfigForLogging (cfg : ClusterConfig)
  /-- The call `logger.Success("CloudWatch logging for cluster %q in %q is already
  up-to-date", meta.Name, meta.Region)`. -/
  | Success (name region : String)
  /-- The call `cmdutils.LogPlanModeWarning(plan)`. -/
  | LogPlanModeWarning (plan : Bool)
  deriving DecidableEq, Repr

/-- The functions of other packages that `doEnableLogging` calls. None of them is among
the sources, so each is an argument: the theorems hold for every behaviour they can
have. Those that receive `cfg` only to read it return no new configuration. -/
structure Collaborators where
  /-- The function `api.SupportedCloudWatchClusterLogTypes()`. -/
  SupportedCloudWatchClusterLogTypes : List String
  /-- The method `cfg.AppendClusterCloudWatchLogTypes(types...)`. -/
  AppendClusterCloudWatchLogTypes : ClusterConfig → List String → ClusterConfig
  /-- The call `cmdutils.NewUtilsEnableLoggingLoader(rc).Load()`, which updates `rc`. -/
  Load : ResourceCmd → Except GoError ResourceCmd
  /-- The function `api.SetClusterConfigDefaults(cfg)`, which updates `cfg`. -/
  SetClusterConfigDefaults : ClusterConfig → ClusterConfig
  /-- The method `ctl.IsSupportedRegion()`. -/
  IsSupportedRegion : ClusterConfig → Bool
  /-- The function `cmdutils.ErrUnsupportedRegion(rc.ProviderConfig)`. -/
  ErrUnsupportedRegion : GoError
  /-- The method `ctl.CheckAuth()`. -/
  CheckAuth : ClusterConfig → Option GoError
  /-- The method `ctl.GetCurrentClusterConfigForLogging(meta)`, first result and error. -/
  GetCurrentClusterConfigForLogging : ClusterConfig → Except GoError StringSet
  /-- The method `cfg.HasClusterCloudWatchLogging()`. -/
  HasClusterCloudWatchLogging : ClusterConfig → Bool
  /-- The error that `printer.LogObj(logger.Debug, ..., cfg)` returns. -/
  LogObj : ClusterConfig → Option GoError
  /-- The error that `ctl.UpdateClusterConfigForLogging(cfg)` returns. -/
  UpdateClusterConfigForLogging : ClusterConfig → Option GoError

/-- The local `shouldEnable` (lines 79-83). -/
def shouldEnable (c : Collaborators) (cfg : ClusterConfig) : StringSet :=
  if c.HasClusterCloudWatchLogging cfg = true then
    StringSet.Insert (StringSet.NewString []) cfg.EnableTypes
  else
    StringSet.NewString []

/-- The local `shouldDisable` (line 85). -/
def shouldDisable (c : Collaborators) (cfg : ClusterConfig) : StringSet :=
  StringSet.Difference (StringSet.NewString c.SupportedCloudWatchClusterLogTypes)
    (shouldEnable c cfg)

/-- The local `updateRequired` (line 87): `!currentlyEnabled.Equal(shouldEnable)`. -/
def updateRequired (currentlyEnabled shouldEnable : StringSet) : Bool :=
  !(StringSet.Equal currentlyEnabled shouldEnable)

/-- The local `describeTypesToEnable` (lines 94-97). -/
def describeTypesToEnable (shouldEnable : StringSet) : String :=
  if (StringSet.List shouldEnable).length > 0 then
    "enable types: " ++ stringsJoin (StringSet.List shouldEnable) ", "
  else
    "no types to enable"

/-- The local `describeTypesToDisable` (lines 99-102). -/
def describeTypesToDisable (shouldDisable : StringSet) : String :=
  if (StringSet.List shouldDisable).length > 0 then
    "disable types: " ++ stringsJoin (StringSet.List shouldDisable) ", "
  else
    "no types to disable"

/-- The function `doEnableLogging` (lines 46-119): the trace of calls it makes, in
order, and the error it returns (`none` is `nil`). The construction of the provider by
`eks.New` has no visible effect and is left out. -/
def doEnableLogging (c : Collaborators) (rc : ResourceCmd)
    (logTypesToEnable : Option (List String)) : List Event × Option GoError :=
  match processTypesToEnable c.SupportedCloudWatchClusterLogTypes logTypesToEnable with
  | .error err => ([], some err)
  | .ok enableTypes =>
    match c.Load { rc with
        ClusterConfig := c.AppendClusterCloudWatchLogTypes rc.ClusterConfig enableTypes } with
    | .error err => ([], some err)
    | .ok rc =>
      let cfg := c.SetClusterConfigDefaults rc.ClusterConfig
      if c.IsSupportedRegion cfg = false then ([], some c.ErrUnsupportedRegion)
      else
        match c.CheckAuth cfg with
        | some err => ([Event.Info cfg.Region], some err)
        | none =>
          match c.GetCurrentClusterConfigForLogging cfg with
          | .error err => ([Event.Info cfg.Region], some err)
          | .ok currentlyEnabled =>
            let required := updateRequired currentlyEnabled (shouldEnable c cfg)
            match c.LogObj cfg with
            | some err => ([Event.Info cfg.Region, Event.LogObj cfg], some err)
            | none =>
              if required = true then
                let intended := Event.LogIntendedAction rc.Plan cfg.Name cfg.Region
                  (describeTypesToEnable (shouldEnable c cfg))
                  (describeTypesToDisable (shouldDisable c cfg))
                if rc.Plan = false then
                  match c.UpdateClusterConfigForLogging cfg with
                  | some err =>
                    ([Event.Info cfg.Region, Event.LogObj cfg, intended,
                      Event.UpdateClusterConfigForLogging cfg], some err)
                  | none =>
                    ([Event.Info cfg.Region, Event.LogObj cfg, intended,
                      Event.UpdateClusterConfigForLogging cfg,
                      Event.LogPlanModeWarning (rc.Plan && required)], none)
                else
                  ([Event.Info cfg.Region, Event.LogObj cfg, intended,
                    Event.LogPlanModeWarning (rc.Plan && required)], none)
              else
                ([Event.Info cfg.Region, Event.LogObj cfg,
                  Event.Success cfg.Name cfg.Region,
                  Event.LogPlanModeWarning (rc.Plan && required)], none)

/-- An instance of the collaborators for the concrete scenarios: the five-entry catalog,
a loader and defaults that leave the configuration as it is, a cluster in a supported
region whose enabled log types are `current`, a configuration that has cluster logging
when its `EnableTypes` is non-empty, and the given results of the debug print and of
the update call. -/
def scenario (current : StringSet) (logObj update : Option GoError) : Collaborators where
  SupportedCloudWatchClusterLogTypes := SupportedCloudWatchClusterLogTypes
  AppendClusterCloudWatchLogTypes := fun cfg types =>
    { cfg with EnableTypes := cfg.EnableTypes ++ types }
  Load := fun rc => .ok rc
  SetClusterConfigDefaults := fun cfg => cfg
  IsSupportedRegion := fun _ => true
  ErrUnsupportedRegion := "unsupported region"
  CheckAuth := fun _ => none
  GetCurrentClusterConfigForLogging := fun _ => .ok current
  HasClusterCloudWatchLogging := fun cfg => !cfg.EnableTypes.isEmpty
  LogObj := fun _ => logObj
  UpdateClusterConfigForLogging := fun _ => update

/-- The configuration of the scenarios: cluster `dev` in `us-west-2` with the given
`EnableTypes`. -/
def scenarioCfg (enableTypes : List String) : ClusterConfig :=
  { Name := "dev", Region := "us-west-2", EnableTypes := enableTypes }

/-- The command state of the scenarios: the plan flag and `scenarioCfg`. -/
def scenarioCmd (plan : Bool) (enableTypes : List String) : ResourceCmd :=
  { Plan := plan, ClusterConfig := scenarioCfg enableTypes }

/-! ## Facts about `sets.String` -/

theorem sets_mem_Insert (s : StringSet) (items : List String) (t : String) :
    t ∈ StringSet.Insert s items ↔ t ∈ s ∨ t ∈ items := by
  unfold StringSet.Insert
  induction items generalizing s with
  | nil => simp
  | cons x xs ih =>
    rw [List.foldl_cons, ih]
    simp only [Finset.mem_insert, List.mem_cons]
    tauto

theorem sets_mem_NewString (items : List String) (t : String) :
    t ∈ StringSet.NewString items ↔ t ∈ items := by
  have h := sets_mem_Insert ∅ items t
  simpa [StringSet.Insert, StringSet.NewString] using h

theorem sets_NewString_eq_toFinset (items : List String) :
    StringSet.NewString items = items.toFinset := by
  ext t
  rw [sets_mem_NewString, List.mem_toFinset]

theorem sets_Has_eq_true (s : StringSet) (t : String) :
    StringSet.Has s t = true ↔ t ∈ s := by
  simp [StringSet.Has]

theorem sets_Has_eq_false (s : StringSet) (t : String) :
    StringSet.Has s t = false ↔ t ∉ s := by
  simp [StringSet.Has]

theorem sets_mem_Difference (s s2 : StringSet) (t : String) :
    t ∈ StringSet.Difference s s2 ↔ t ∈ s ∧ t ∉ s2 := by
  simp [StringSet.Difference, StringSet.Has]

theorem sets_IsSuperset_eq_true (s1 s2 : StringSet) :
    StringSet.IsSuperset s1 s2 = true ↔ s2 ⊆ s1 := by
  simp [StringSet.IsSuperset, StringSet.Has, Finset.subset_iff]

theorem sets_Equal_eq_true (s1 s2 : StringSet) :
    StringSet.Equal s1 s2 = true ↔ s1 = s2 := by
  unfold StringSet.Equal
  rw [Bool.and_eq_true, decide_eq_true_eq, sets_IsSuperset_eq_true]
  constructor
  · rintro ⟨hcard, hsub⟩
    exact (Finset.eq_of_subset_of_card_le hsub (le_of_eq hcard)).symm
  · rintro rfl
    exact ⟨rfl, Finset.Subset.refl _⟩

theorem sets_List_perm (s : StringSet) (l : List String) (h : s.val = (l : Multiset String)) :
    (StringSet.List s).Perm l := by
  unfold StringSet.List
  rw [h]
  exact sortStrings_perm l

theorem sets_mem_List (s : StringSet) (t : String) :
    t ∈ StringSet.List s ↔ t ∈ s := by
  obtain ⟨l, hl⟩ := Quot.exists_rep s.val
  have hp := sets_List_perm s l hl.symm
  rw [hp.mem_iff, ← Finset.mem_val, ← hl]
  rfl

theorem sets_List_nodup (s : StringSet) : (StringSet.List s).Nodup := by
  obtain ⟨l, hl⟩ := Quot.exists_rep s.val
  have hp := sets_List_perm s l hl.symm
  rw [hp.nodup_iff]
  have := s.nodup
  rw [← hl] at this
  exact this

theorem sets_List_sorted (s : StringSet) : (StringSet.List s).Sorted StrLE := by
  obtain ⟨l, hl⟩ := Quot.exists_rep s.val
  unfold StringSet.List
  rw [← hl]
  exact sortStrings_sorted l

theorem sets_List_NewString (l : List String) (hs : l.Sorted StrLE) (hn : l.Nodup) :
    StringSet.List (StringSet.NewString l) = l := by
  rw [sets_NewString_eq_toFinset]
  have hv : (l.toFinset).val = (l : Multiset String) := by
    rw [List.toFinset_val, List.dedup_eq_self.mpr hn]
  exact List.eq_of_perm_of_sorted (sets_List_perm _ l hv) (sets_List_sorted _) hs

theorem sets_List_eq_nil (s : StringSet) : StringSet.List s = [] ↔ s = ∅ := by
  constructor
  · intro h
    ext t
    rw [← sets_mem_List, h]
    simp
  · rintro rfl
    rfl

/-! ## The order of `sort.Strings` is the order of `String` -/

theorem lexLE_iff_not_lex (a b : List Char) :
    lexLE a b = true ↔ ¬ List.Lex (fun x y : Char => x < y) b a := by
  induction a generalizing b with
  | nil =>
    cases b with
    | nil => simp [lexLE, List.Lex.not_nil_right]
    | cons y ys => simp [lexLE, List.Lex.not_nil_right]
  | cons x xs ih =>
    cases b with
    | nil =>
      simp only [lexLE, Bool.false_eq_true, false_iff, not_not]
      exact List.Lex.nil
    | cons y ys =>
      simp only [lexLE, Bool.or_eq_true, Bool.and_eq_true, decide_eq_true_eq]
      constructor
      · rintro (h | ⟨h, ht⟩) hlex
        · cases hlex with
          | cons h2 => exact absurd h (Nat.lt_irrefl _)
          | rel h2 => exact absurd h (Nat.lt_asymm h2)
        · have hxy := char_eq_of_toNat_eq x y h
          subst hxy
          exact (ih ys).mp ht (List.Lex.cons_iff.mp hlex)
      · intro hlex
        rcases Nat.lt_trichotomy x.toNat y.toNat with h | h | h
        · exact Or.inl h
        · refine Or.inr ⟨h, (ih ys).mpr ?_⟩
          have hxy := char_eq_of_toNat_eq x y h
          subst hxy
          exact fun h2 => hlex (List.Lex.cons h2)
        · have hyx : y < x := h
          exact absurd (List.Lex.rel hyx) hlex

/-- The order of `strLE` is the order of `String`. -/
theorem strLE_iff_le (a b : String) : strLE a b = true ↔ a ≤ b := by
  rw [String.le_iff_toList_le, ← not_lt]
  exact lexLE_iff_not_lex a.data b.data

/-! ## Facts about `processTypesToEnable` -/

theorem length_one_head_all (types : List String) :
    (types.length = 1 ∧ types.head? = some "all") ↔ types = ["all"] := by
  constructor
  · rintro ⟨hlen, hhead⟩
    match types, hlen, hhead with
    | [x], _, hhead =>
      simp only [List.head?_cons, Option.some.injEq] at hhead
      rw [hhead]
  · rintro rfl
    exact ⟨rfl, rfl⟩

theorem processTypesLoop_ok (catalog : List String) (allSet : StringSet)
    (types : List String) (acc : StringSet) (h : ∀ t ∈ types, t ∈ allSet) :
    processTypesLoop catalog allSet types acc = .ok (StringSet.Insert acc types) := by
  induction types generalizing acc with
  | nil => rfl
  | cons x xs ih =>
    have hx : StringSet.Has allSet x = true :=
      (sets_Has_eq_true allSet x).mpr (h x (List.mem_cons_self x xs))
    rw [processTypesLoop, if_neg (by simp [hx]),
      ih _ (fun t ht => h t (List.mem_cons_of_mem x ht))]
    rfl

theorem processTypesLoop_error (catalog : List String) (allSet : StringSet)
    (before : List String) (bad : String) (after : List String) (acc : StringSet)
    (hbefore : ∀ t ∈ before, t ∈ allSet) (hbad : bad ∉ allSet) :
    processTypesLoop catalog allSet (before ++ bad :: after) acc
      = .error (unknownLogTypeError catalog bad) := by
  induction before generalizing acc with
  | nil =>
    rw [List.nil_append, processTypesLoop, if_pos ((sets_Has_eq_false allSet bad).mpr hbad)]
  | cons x xs ih =>
    have hx : StringSet.Has allSet x = true :=
      (sets_Has_eq_true allSet x).mpr (hbefore x (List.mem_cons_self x xs))
    rw [List.cons_append, processTypesLoop, if_neg (by simp [hx])]
    exact ih _ (fun t ht => hbefore t (List.mem_cons_of_mem x ht))

theorem exists_first_unknown (catalog types : List String)
    (h : ∃ t ∈ types, t ∉ catalog) :
    ∃ before bad after, types = before ++ bad :: after ∧
      (∀ t ∈ before, t ∈ catalog) ∧ bad ∉ catalog := by
  induction types with
  | nil => simp at h
  | cons x xs ih =>
    by_cases hx : x ∈ catalog
    · have h2 : ∃ t ∈ xs, t ∉ catalog := by
        obtain ⟨t, ht, htc⟩ := h
        rcases List.mem_cons.mp ht with rfl | ht2
        · exact absurd hx htc
        · exact ⟨t, ht2, htc⟩
      obtain ⟨before, bad, after, heq, hb, hbad⟩ := ih h2
      refine ⟨x :: before, bad, after, by rw [heq, List.cons_append], ?_, hbad⟩
      intro t ht
      rcases List.mem_cons.mp ht with rfl | ht2
      · exact hx
      · exact hb t ht2
    · exact ⟨[], x, xs, rfl, by simp, hx⟩

theorem processTypesToEnable_loop (catalog types : List String) (hne : types ≠ [])
    (hall : types ≠ ["all"]) :
    processTypesToEnable catalog (some types) =
      match processTypesLoop catalog (StringSet.NewString catalog) types
          (StringSet.NewString []) with
      | .error err => .error err
      | .ok typesToEnable => .ok (StringSet.List typesToEnable) := by
  have h0 : ¬ types.length = 0 := by
    intro h
    exact hne (List.length_eq_zero.mp h)
  have h1 : ¬ (types.length = 1 ∧ types.head? = some "all") := by
    rw [length_one_head_all]
    exact hall
  simp only [processTypesToEnable, if_neg h0, if_neg h1]

theorem processTypesToEnable_members (catalog types : List String) (hne : types ≠ [])
    (hall : types ≠ ["all"]) (hmem : ∀ t ∈ types, t ∈ catalog) :
    processTypesToEnable catalog (some types)
      = .ok (StringSet.List (StringSet.NewString types)) := by
  rw [processTypesToEnable_loop catalog types hne hall,
    processTypesLoop_ok catalog _ types _
      (fun t ht => (sets_mem_NewString catalog t).mpr (hmem t ht))]
  rfl

/-- For any catalog that does not hold the token all: every list of catalog members
resolves to the sorted duplicate-free list of its elements, and resolving the result
again returns it unchanged. -/
theorem processTypesToEnable_of_members (catalog : List String)
    (hcat : "all" ∉ catalog) (typesEnabled : Option (List String))
    (hmem : ∀ t ∈ typesEnabled.getD [], t ∈ catalog) :
    ∃ result, processTypesToEnable catalog typesEnabled = .ok result ∧
      result.Nodup ∧ result.Sorted StrLE ∧
      (∀ t, t ∈ result ↔ t ∈ typesEnabled.getD []) ∧
      processTypesToEnable catalog (some result) = .ok result := by
  have key : ∀ types : List String, (∀ t ∈ types, t ∈ catalog) →
      ∃ result, processTypesToEnable catalog (some types) = .ok result ∧
        result.Nodup ∧ result.Sorted StrLE ∧ (∀ t, t ∈ result ↔ t ∈ types) ∧
        (result ≠ [] → processTypesToEnable catalog (some result)
          = .ok (StringSet.List (StringSet.NewString result))) := by
    intro types hm
    by_cases hne : types = []
    · subst hne
      exact ⟨[], rfl, List.nodup_nil, List.sorted_nil, fun t => Iff.rfl,
        fun h => absurd rfl h⟩
    · have hall : types ≠ ["all"] := by
        rintro rfl
        exact hcat (hm "all" (List.mem_singleton_self _))
      refine ⟨_, processTypesToEnable_members catalog types hne hall hm,
        sets_List_nodup _, sets_List_sorted _, ?_, ?_⟩
      · intro t
        rw [sets_mem_List, sets_mem_NewString]
      · intro hr
        have hm2 : ∀ t ∈ StringSet.List (StringSet.NewString types), t ∈ catalog := by
          intro t ht
          rw [sets_mem_List, sets_mem_NewString] at ht
          exact hm t ht
        have hall2 : StringSet.List (StringSet.NewString types) ≠ ["all"] := by
          intro h
          exact hcat (hm2 "all" (by rw [h]; exact List.mem_singleton_self _))
        exact processTypesToEnable_members catalog _ hr hall2 hm2
  have fin : ∀ types : List String, (∀ t ∈ types, t ∈ catalog) →
      ∃ result, processTypesToEnable catalog (some types) = .ok result ∧
        result.Nodup ∧ result.Sorted StrLE ∧ (∀ t, t ∈ result ↔ t ∈ types) ∧
        processTypesToEnable catalog (some result) = .ok result := by
    intro types hm
    obtain ⟨result, hok, hnd, hs, hiff, hidem⟩ := key types hm
    refine ⟨result, hok, hnd, hs, hiff, ?_⟩
    by_cases hr : result = []
    · subst hr
      rfl
    · rw [hidem hr, sets_List_NewString result hs hnd]
  cases typesEnabled with
  | none => exact ⟨[], rfl, List.nodup_nil, List.sorted_nil, fun t => Iff.rfl, rfl⟩
  | some types => exact fin types hmem

theorem all_not_supported : "all" ∉ SupportedCloudWatchClusterLogTypes := by
  decide

/-! ## The resolver: claims C1, C2, C3 and C10 -/

/-- C1: for every catalog and every flag list that is non-empty and is not exactly
the one-element list all, if some element is outside the catalog then
`processTypesToEnable` returns an error (and so no list); the message names the first
element of the list, in input order, that is outside the catalog, and lists the whole
catalog joined by a comma and a space. -/
theorem processTypesToEnable_unknown (catalog types : List String)
    (hne : types ≠ []) (hall : types ≠ ["all"]) (hbad : ∃ t ∈ types, t ∉ catalog) :
    ∃ before bad after, types = before ++ bad :: after ∧
      (∀ t ∈ before, t ∈ catalog) ∧ bad ∉ catalog ∧
      processTypesToEnable catalog (some types) =
        .error ("unknown log type " ++ bad ++ ". Supported log types: "
          ++ ", ".intercalate catalog) := by
  obtain ⟨before, bad, after, heq, hbefore, hnot⟩ := exists_first_unknown catalog types hbad
  refine ⟨before, bad, after, heq, hbefore, hnot, ?_⟩
  rw [processTypesToEnable_loop catalog types hne hall, heq,
    processTypesLoop_error catalog _ before bad after _
      (fun t ht => (sets_mem_NewString catalog t).mpr (hbefore t ht))
      (fun h => hnot ((sets_mem_NewString catalog bad).mp h))]
  rfl

/-- Witness for C1: the list holding only bogus, against the five-entry catalog. -/
theorem processTypesToEnable_unknown_witness :
    (["bogus"] ≠ ([] : List String) ∧ ["bogus"] ≠ ["all"] ∧
      ∃ t ∈ ["bogus"], t ∉ SupportedCloudWatchClusterLogTypes) ∧
    (∃ before bad after, ["bogus"] = before ++ bad :: after ∧
      (∀ t ∈ before, t ∈ SupportedCloudWatchClusterLogTypes) ∧
      bad ∉ SupportedCloudWatchClusterLogTypes ∧
      processTypesToEnable SupportedCloudWatchClusterLogTypes (some ["bogus"]) =
        .error ("unknown log type " ++ bad ++ ". Supported log types: "
          ++ ", ".intercalate SupportedCloudWatchClusterLogTypes)) ∧
    processTypesToEnable SupportedCloudWatchClusterLogTypes (some ["bogus"]) =
      .error ("unknown log type bogus. Supported log types: "
        ++ "api, audit, authenticator, controllerManager, scheduler") :=
  ⟨⟨by decide, by decide, "bogus", by decide, by decide⟩,
    processTypesToEnable_unknown SupportedCloudWatchClusterLogTypes ["bogus"]
      (by decide) (by decide) ⟨"bogus", by decide, by decide⟩,
    by decide⟩

/-- C2: every flag list (the nil pointer and the empty list included) whose elements
are all members of the catalog resolves without error to a duplicate-free list with
exactly the elements of the input, which is empty when the input is; resolving that
result again returns the same result. -/
theorem processTypesToEnable_dedup_idempotent (typesEnabled : Option (List String))
    (hmem : ∀ t ∈ typesEnabled.getD [], t ∈ SupportedCloudWatchClusterLogTypes) :
    ∃ result,
      processTypesToEnable SupportedCloudWatchClusterLogTypes typesEnabled = .ok result ∧
      result.Nodup ∧
      (∀ t, t ∈ result ↔ t ∈ typesEnabled.getD []) ∧
      (typesEnabled.getD [] = [] → result = []) ∧
      processTypesToEnable SupportedCloudWatchClusterLogTypes (some result) = .ok result := by
  obtain ⟨result, hok, hnd, _, hiff, hidem⟩ :=
    processTypesToEnable_of_members SupportedCloudWatchClusterLogTypes all_not_supported
      typesEnabled hmem
  refine ⟨result, hok, hnd, hiff, ?_, hidem⟩
  intro hnil
  apply List.eq_nil_iff_forall_not_mem.mpr
  intro t ht
  rw [hiff, hnil] at ht
  exact absurd ht (List.not_mem_nil t)

/-- Witness for C2: a list with a repeated member, given out of order. -/
theorem processTypesToEnable_dedup_idempotent_witness :
    (∀ t ∈ (some ["scheduler", "api", "api"]).getD [],
      t ∈ SupportedCloudWatchClusterLogTypes) ∧
    (∃ result,
      processTypesToEnable SupportedCloudWatchClusterLogTypes
        (some ["scheduler", "api", "api"]) = .ok result ∧
      result.Nodup ∧
      (∀ t, t ∈ result ↔ t ∈ (some ["scheduler", "api", "api"]).getD []) ∧
      ((some ["scheduler", "api", "api"]).getD [] = [] → result = []) ∧
      processTypesToEnable SupportedCloudWatchClusterLogTypes (some result) = .ok result) ∧
    processTypesToEnable SupportedCloudWatchClusterLogTypes
      (some ["scheduler", "api", "api"]) = .ok ["api", "scheduler"] :=
  ⟨by decide,
    processTypesToEnable_dedup_idempotent (some ["scheduler", "api", "api"]) (by decide),
    by decide⟩

/-- C3: for any catalog, the one-element list all resolves without error to exactly
the catalog that `SupportedCloudWatchClusterLogTypes` returns. -/
theorem processTypesToEnable_all (catalog : List String) :
    processTypesToEnable catalog (some ["all"]) = .ok catalog := by
  simp [processTypesToEnable]

/-- C10: provided all is not itself a catalog member, every flag list of length at
least two that contains all is rejected with the unknown-log-type error for its first
element outside the catalog; in particular the result is not the full catalog. -/
theorem processTypesToEnable_all_not_alone (catalog types : List String)
    (hcat : "all" ∉ catalog) (hlen : 2 ≤ types.length) (hin : "all" ∈ types) :
    (∃ before bad after, types = before ++ bad :: after ∧
      (∀ t ∈ before, t ∈ catalog) ∧ bad ∉ catalog ∧
      processTypesToEnable catalog (some types) =
        .error ("unknown log type " ++ bad ++ ". Supported log types: "
          ++ ", ".intercalate catalog)) ∧
    processTypesToEnable catalog (some types) ≠ .ok catalog := by
  have hne : types ≠ [] := by
    rintro rfl
    simp at hlen
  have hall : types ≠ ["all"] := by
    rintro rfl
    simp at hlen
  obtain ⟨before, bad, after, heq, hbefore, hnot⟩ :=
    exists_first_unknown catalog types ⟨"all", hin, hcat⟩
  have herr : processTypesToEnable catalog (some types) =
      .error (unknownLogTypeError catalog bad) := by
    rw [processTypesToEnable_loop catalog types hne hall, heq,
      processTypesLoop_error catalog _ before bad after _
        (fun t ht => (sets_mem_NewString catalog t).mpr (hbefore t ht))
        (fun h => hnot ((sets_mem_NewString catalog bad).mp h))]
  refine ⟨⟨before, bad, after, heq, hbefore, hnot, herr⟩, ?_⟩
  rw [herr]
  intro h
  cases h

/-- Witness for C10: all followed by a catalog member, and all given twice. -/
theorem processTypesToEnable_all_not_alone_witness :
    ("all" ∉ SupportedCloudWatchClusterLogTypes ∧ 2 ≤ ["all", "api"].length ∧
      "all" ∈ ["all", "api"]) ∧
    ((∃ before bad after, ["all", "api"] = before ++ bad :: after ∧
      (∀ t ∈ before, t ∈ SupportedCloudWatchClusterLogTypes) ∧
      bad ∉ SupportedCloudWatchClusterLogTypes ∧
      processTypesToEnable SupportedCloudWatchClusterLogTypes (some ["all", "api"]) =
        .error ("unknown log type " ++ bad ++ ". Supported log types: "
          ++ ", ".intercalate SupportedCloudWatchClusterLogTypes)) ∧
      processTypesToEnable SupportedCloudWatchClusterLogTypes (some ["all", "api"])
        ≠ .ok SupportedCloudWatchClusterLogTypes) ∧
    processTypesToEnable SupportedCloudWatchClusterLogTypes (some ["all", "api"]) =
      .error ("unknown log type all. Supported log types: "
        ++ "api, audit, authenticator, controllerManager, scheduler") ∧
    processTypesToEnable SupportedCloudWatchClusterLogTypes (some ["all", "all"]) =
      .error ("unknown log type all. Supported log types: "
        ++ "api, audit, authenticator, controllerManager, scheduler") :=
  ⟨⟨by decide, by decide, by decide⟩,
    processTypesToEnable_all_not_alone SupportedCloudWatchClusterLogTypes ["all", "api"]
      (by decide) (by decide) (by decide),
    by decide, by decide⟩

/-! ## The diff: claims C4 and C8 -/

theorem updateRequired_eq_false (currentlyEnabled desired : StringSet) :
    updateRequired currentlyEnabled desired = false ↔ currentlyEnabled = desired := by
  unfold updateRequired
  rw [Bool.not_eq_false_eq_eq_true, sets_Equal_eq_true]

theorem mem_shouldEnable (c : Collaborators) (cfg : ClusterConfig) (t : String) :
    t ∈ shouldEnable c cfg ↔ c.HasClusterCloudWatchLogging cfg = true ∧ t ∈ cfg.EnableTypes := by
  unfold shouldEnable
  by_cases h : c.HasClusterCloudWatchLogging cfg = true
  · rw [if_pos h, sets_mem_Insert, sets_mem_NewString]
    simp [h]
  · rw [if_neg h, sets_mem_NewString]
    simp [h]

theorem mem_shouldDisable (c : Collaborators) (cfg : ClusterConfig) (t : String) :
    t ∈ shouldDisable c cfg ↔
      t ∈ c.SupportedCloudWatchClusterLogTypes ∧ t ∉ shouldEnable c cfg := by
  unfold shouldDisable
  rw [sets_mem_Difference, sets_mem_NewString]

/-- C4: for every pair of sets, `updateRequired` is false exactly when the two sets
hold the same tokens and true otherwise; the comparison ignores order and
distinguishes upper from lower case. With api and audit on both sides it is false. -/
theorem updateRequired_iff_sets_differ (currentlyEnabled desired : StringSet) :
    (updateRequired currentlyEnabled desired = false ↔
      ∀ t, t ∈ currentlyEnabled ↔ t ∈ desired) ∧
    (updateRequired currentlyEnabled desired = true ↔
      ¬ ∀ t, t ∈ currentlyEnabled ↔ t ∈ desired) ∧
    updateRequired {"api", "audit"} {"api", "audit"} = false ∧
    updateRequired {"audit", "api"} {"api", "audit"} = false ∧
    updateRequired {"API", "audit"} {"api", "audit"} = true := by
  have h1 : updateRequired currentlyEnabled desired = false ↔
      ∀ t, t ∈ currentlyEnabled ↔ t ∈ desired := by
    rw [updateRequired_eq_false, Finset.ext_iff]
  refine ⟨h1, ?_, by decide, by decide, by decide⟩
  rw [← h1]
  cases updateRequired currentlyEnabled desired <;> simp

/-- C8: for every configuration, `shouldEnable` holds exactly the log types the
configuration asks for (all of its `EnableTypes` when it has cluster logging, none
otherwise) and `shouldDisable` holds exactly the catalog entries outside
`shouldEnable`. Neither is computed from the current set; `updateRequired` is: it is
false for the current set equal to `shouldEnable` and true for some other current set. -/
theorem plan_is_full_partition (c : Collaborators) (cfg : ClusterConfig) :
    (∀ t, t ∈ shouldEnable c cfg ↔
      c.HasClusterCloudWatchLogging cfg = true ∧ t ∈ cfg.EnableTypes) ∧
    (∀ t, t ∈ shouldDisable c cfg ↔
      t ∈ c.SupportedCloudWatchClusterLogTypes ∧ t ∉ shouldEnable c cfg) ∧
    updateRequired (shouldEnable c cfg) (shouldEnable c cfg) = false ∧
    ∃ currentlyEnabled, updateRequired currentlyEnabled (shouldEnable c cfg) = true := by
  refine ⟨mem_shouldEnable c cfg, mem_shouldDisable c cfg,
    (updateRequired_eq_false _ _).mpr rfl, ?_⟩
  obtain ⟨x, hx⟩ := Infinite.exists_not_mem_finset (shouldEnable c cfg)
  refine ⟨insert x (shouldEnable c cfg), ?_⟩
  cases h : updateRequired (insert x (shouldEnable c cfg)) (shouldEnable c cfg) with
  | true => rfl
  | false =>
    rw [updateRequired_eq_false] at h
    exact absurd (h ▸ Finset.mem_insert_self x _) hx

/-! ## The executor: claims C5, C6, C7 and C9 -/

/-- What `doEnableLogging` does from line 93 on, once validation, loading, the region
and credential checks, the probe and the debug print have all succeeded. -/
theorem doEnableLogging_decision (c : Collaborators) (rc : ResourceCmd)
    (logTypesToEnable : Option (List String)) (enableTypes : List String)
    (rc' : ResourceCmd) (cfg : ClusterConfig) (currentlyEnabled : StringSet)
    (hproc : processTypesToEnable c.SupportedCloudWatchClusterLogTypes logTypesToEnable
      = .ok enableTypes)
    (hload : c.Load { rc with ClusterConfig :=
      c.AppendClusterCloudWatchLogTypes rc.ClusterConfig enableTypes } = .ok rc')
    (hcfg : cfg = c.SetClusterConfigDefaults rc'.ClusterConfig)
    (hregion : c.IsSupportedRegion cfg = true)
    (hauth : c.CheckAuth cfg = none)
    (hprobe : c.GetCurrentClusterConfigForLogging cfg = .ok currentlyEnabled)
    (hlog : c.LogObj cfg = none) :
    doEnableLogging c rc logTypesToEnable =
      if updateRequired currentlyEnabled (shouldEnable c cfg) = true then
        if rc'.Plan = false then
          match c.UpdateClusterConfigForLogging cfg with
          | some err =>
            ([Event.Info cfg.Region, Event.LogObj cfg,
              Event.LogIntendedAction rc'.Plan cfg.Name cfg.Region
                (describeTypesToEnable (shouldEnable c cfg))
                (describeTypesToDisable (shouldDisable c cfg)),
              Event.UpdateClusterConfigForLogging cfg], some err)
          | none =>
            ([Event.Info cfg.Region, Event.LogObj cfg,
              Event.LogIntendedAction rc'.Plan cfg.Name cfg.Region
                (describeTypesToEnable (shouldEnable c cfg))
                (describeTypesToDisable (shouldDisable c cfg)),
              Event.UpdateClusterConfigForLogging cfg,
              Event.LogPlanModeWarning
                (rc'.Plan && updateRequired currentlyEnabled (shouldEnable c cfg))], none)
        else
          ([Event.Info cfg.Region, Event.LogObj cfg,
            Event.LogIntendedAction rc'.Plan cfg.Name cfg.Region
              (describeTypesToEnable (shouldEnable c cfg))
              (describeTypesToDisable (shouldDisable c cfg)),
            Event.LogPlanModeWarning
              (rc'.Plan && updateRequired currentlyEnabled (shouldEnable c cfg))], none)
      else
        ([Event.Info cfg.Region, Event.LogObj cfg, Event.Success cfg.Name cfg.Region,
          Event.LogPlanModeWarning
            (rc'.Plan && updateRequired currentlyEnabled (shouldEnable c cfg))], none) := by
  subst hcfg
  unfold doEnableLogging
  simp only [hproc, hload, hregion, hauth, hprobe, hlog]
  rfl

/-- Safety of the dry-run gate, with no assumption on the collaborators: whenever the
trace holds a call of `UpdateClusterConfigForLogging`, plan mode was inactive, the
change was required, and the argument is the configuration the diff was computed from. -/
theorem doEnableLogging_update_only_if (c : Collaborators) (rc : ResourceCmd)
    (logTypesToEnable : Option (List String)) (cfg' : ClusterConfig)
    (h : Event.UpdateClusterConfigForLogging cfg'
      ∈ (doEnableLogging c rc logTypesToEnable).1) :
    ∃ enableTypes rc' currentlyEnabled,
      processTypesToEnable c.SupportedCloudWatchClusterLogTypes logTypesToEnable
        = .ok enableTypes ∧
      c.Load { rc with ClusterConfig :=
        c.AppendClusterCloudWatchLogTypes rc.ClusterConfig enableTypes } = .ok rc' ∧
      cfg' = c.SetClusterConfigDefaults rc'.ClusterConfig ∧
      c.GetCurrentClusterConfigForLogging cfg' = .ok currentlyEnabled ∧
      c.LogObj cfg' = none ∧
      rc'.Plan = false ∧
      updateRequired currentlyEnabled (shouldEnable c cfg') = true := by
  unfold doEnableLogging at h
  split at h
  · simp at h
  · rename_i enableTypes hproc
    split at h
    · simp at h
    · rename_i rc' hload
      refine ⟨enableTypes, rc', ?_⟩
      simp only at h
      split at h
      · simp at h
      · split at h
        · simp at h
        · split at h
          · simp at h
          · rename_i cur hprobe
            split at h
            · simp at h
            · rename_i hlog
              split at h
              · rename_i hreq
                split at h
                · rename_i hplan
                  split at h <;> simp at h <;> subst h <;>
                    exact ⟨cur, hproc, hload, rfl, hprobe, hlog, hplan, hreq⟩
                · simp at h
              · simp at h

/-- C5: when the run reaches the decision with `updateRequired` true and plan mode
active, `doEnableLogging` makes no call of `UpdateClusterConfigForLogging` and returns
no error; its calls are the intended-action description, made with the plan flag, and
then `LogPlanModeWarning` with argument true, which is the plan-mode advisory. -/
theorem doEnableLogging_plan_never_updates (c : Collaborators) (rc : ResourceCmd)
    (logTypesToEnable : Option (List String)) (enableTypes : List String)
    (rc' : ResourceCmd) (cfg : ClusterConfig) (currentlyEnabled : StringSet)
    (hproc : processTypesToEnable c.SupportedCloudWatchClusterLogTypes logTypesToEnable
      = .ok enableTypes)
    (hload : c.Load { rc with ClusterConfig :=
      c.AppendClusterCloudWatchLogTypes rc.ClusterConfig enableTypes } = .ok rc')
    (hcfg : cfg = c.SetClusterConfigDefaults rc'.ClusterConfig)
    (hregion : c.IsSupportedRegion cfg = true)
    (hauth : c.CheckAuth cfg = none)
    (hprobe : c.GetCurrentClusterConfigForLogging cfg = .ok currentlyEnabled)
    (hlog : c.LogObj cfg = none)
    (hreq : updateRequired currentlyEnabled (shouldEnable c cfg) = true)
    (hplan : rc'.Plan = true) :
    (∀ cfg', Event.UpdateClusterConfigForLogging cfg'
      ∉ (doEnableLogging c rc logTypesToEnable).1) ∧
    (doEnableLogging c rc logTypesToEnable).2 = none ∧
    (doEnableLogging c rc logTypesToEnable).1 =
      [Event.Info cfg.Region, Event.LogObj cfg,
        Event.LogIntendedAction true cfg.Name cfg.Region
          (describeTypesToEnable (shouldEnable c cfg))
          (describeTypesToDisable (shouldDisable c cfg)),
        Event.LogPlanModeWarning true] := by
  rw [doEnableLogging_decision c rc logTypesToEnable enableTypes rc' cfg currentlyEnabled
    hproc hload hcfg hregion hauth hprobe hlog]
  simp [hreq, hplan]

/-- Witness for C5: the cluster has api enabled, nothing is requested, plan mode. -/
theorem doEnableLogging_plan_never_updates_witness :
    (∀ cfg', Event.UpdateClusterConfigForLogging cfg'
      ∉ (doEnableLogging (scenario {"api"} none none) (scenarioCmd true []) (some [])).1) ∧
    (doEnableLogging (scenario {"api"} none none) (scenarioCmd true []) (some [])).2 = none ∧
    (doEnableLogging (scenario {"api"} none none) (scenarioCmd true []) (some [])).1 =
      [Event.Info "us-west-2", Event.LogObj (scenarioCfg []),
        Event.LogIntendedAction true "dev" "us-west-2" "no types to enable"
          "disable types: api, audit, authenticator, controllerManager, scheduler",
        Event.LogPlanModeWarning true] :=
  doEnableLogging_plan_never_updates (scenario {"api"} none none) (scenarioCmd true [])
    (some []) [] (scenarioCmd true []) (scenarioCfg []) {"api"}
    (by decide) (by decide) (by decide) (by decide) (by decide) (by decide) (by decide)
    (by decide) (by decide)

/-- C6: when the run reaches the decision with `updateRequired` false, then in plan
mode or not `doEnableLogging` makes no call of `UpdateClusterConfigForLogging`, reports
success (already up-to-date), returns no error, and its only `LogPlanModeWarning` call
has argument false, so no plan-mode advisory is surfaced. -/
theorem doEnableLogging_up_to_date (c : Collaborators) (rc : ResourceCmd)
    (logTypesToEnable : Option (List String)) (enableTypes : List String)
    (rc' : ResourceCmd) (cfg : ClusterConfig) (currentlyEnabled : StringSet)
    (hproc : processTypesToEnable c.SupportedCloudWatchClusterLogTypes logTypesToEnable
      = .ok enableTypes)
    (hload : c.Load { rc with ClusterConfig :=
      c.AppendClusterCloudWatchLogTypes rc.ClusterConfig enableTypes } = .ok rc')
    (hcfg : cfg = c.SetClusterConfigDefaults rc'.ClusterConfig)
    (hregion : c.IsSupportedRegion cfg = true)
    (hauth : c.CheckAuth cfg = none)
    (hprobe : c.GetCurrentClusterConfigForLogging cfg = .ok currentlyEnabled)
    (hlog : c.LogObj cfg = none)
    (hreq : updateRequired currentlyEnabled (shouldEnable c cfg) = false) :
    (∀ cfg', Event.UpdateClusterConfigForLogging cfg'
      ∉ (doEnableLogging c rc logTypesToEnable).1) ∧
    Event.Success cfg.Name cfg.Region ∈ (doEnableLogging c rc logTypesToEnable).1 ∧
    (doEnableLogging c rc logTypesToEnable).2 = none ∧
    Event.LogPlanModeWarning true ∉ (doEnableLogging c rc logTypesToEnable).1 ∧
    (∀ plan describeEnable describeDisable,
      Event.LogIntendedAction plan cfg.Name cfg.Region describeEnable describeDisable
        ∉ (doEnableLogging c rc logTypesToEnable).1) ∧
    (doEnableLogging c rc logTypesToEnable).1 =
      [Event.Info cfg.Region, Event.LogObj cfg, Event.Success cfg.Name cfg.Region,
        Event.LogPlanModeWarning false] := by
  rw [doEnableLogging_decision c rc logTypesToEnable enableTypes rc' cfg currentlyEnabled
    hproc hload hcfg hregion hauth hprobe hlog]
  simp [hreq]

/-- Witness for C6: api and audit are enabled and requested (in another order, one of
them twice), in plan mode. -/
theorem doEnableLogging_up_to_date_witness :
    (∀ cfg', Event.UpdateClusterConfigForLogging cfg' ∉
      (doEnableLogging (scenario {"api", "audit"} none none) (scenarioCmd true [])
        (some ["audit", "api", "audit"])).1) ∧
    Event.Success "dev" "us-west-2" ∈
      (doEnableLogging (scenario {"api", "audit"} none none) (scenarioCmd true [])
        (some ["audit", "api", "audit"])).1 ∧
    (doEnableLogging (scenario {"api", "audit"} none none) (scenarioCmd true [])
      (some ["audit", "api", "audit"])).2 = none ∧
    Event.LogPlanModeWarning true ∉
      (doEnableLogging (scenario {"api", "audit"} none none) (scenarioCmd true [])
        (some ["audit", "api", "audit"])).1 ∧
    (∀ plan describeEnable describeDisable,
      Event.LogIntendedAction plan "dev" "us-west-2" describeEnable describeDisable ∉
        (doEnableLogging (scenario {"api", "audit"} none none) (scenarioCmd true [])
          (some ["audit", "api", "audit"])).1) ∧
    (doEnableLogging (scenario {"api", "audit"} none none) (scenarioCmd true [])
      (some ["audit", "api", "audit"])).1 =
      [Event.Info "us-west-2",
        Event.LogObj (scenarioCfg ["api", "audit"]),
        Event.Success "dev" "us-west-2", Event.LogPlanModeWarning false] :=
  doEnableLogging_up_to_date (scenario {"api", "audit"} none none) (scenarioCmd true [])
    (some ["audit", "api", "audit"]) ["api", "audit"]
    (scenarioCmd true ["api", "audit"]) (scenarioCfg ["api", "audit"]) {"api", "audit"}
    (by decide) (by decide) (by decide) (by decide) (by decide) (by decide) (by decide)
    (by decide)

/-- C7: when the run reaches the decision with `updateRequired` true and plan mode
inactive, `doEnableLogging` calls `UpdateClusterConfigForLogging` exactly once, with
the configuration `cfg` whose requested log types are the whole of `shouldEnable`
(chosen before and without the current set); it returns exactly the error of that
call, and no error when the call succeeds. -/
theorem doEnableLogging_applies_full_set (c : Collaborators) (rc : ResourceCmd)
    (logTypesToEnable : Option (List String)) (enableTypes : List String)
    (rc' : ResourceCmd) (cfg : ClusterConfig) (currentlyEnabled : StringSet)
    (hproc : processTypesToEnable c.SupportedCloudWatchClusterLogTypes logTypesToEnable
      = .ok enableTypes)
    (hload : c.Load { rc with ClusterConfig :=
      c.AppendClusterCloudWatchLogTypes rc.ClusterConfig enableTypes } = .ok rc')
    (hcfg : cfg = c.SetClusterConfigDefaults rc'.ClusterConfig)
    (hregion : c.IsSupportedRegion cfg = true)
    (hauth : c.CheckAuth cfg = none)
    (hprobe : c.GetCurrentClusterConfigForLogging cfg = .ok currentlyEnabled)
    (hlog : c.LogObj cfg = none)
    (hreq : updateRequired currentlyEnabled (shouldEnable c cfg) = true)
    (hplan : rc'.Plan = false) :
    (doEnableLogging c rc logTypesToEnable).1.count
      (Event.UpdateClusterConfigForLogging cfg) = 1 ∧
    (∀ cfg', Event.UpdateClusterConfigForLogging cfg'
      ∈ (doEnableLogging c rc logTypesToEnable).1 → cfg' = cfg) ∧
    (∀ t, t ∈ shouldEnable c cfg ↔
      c.HasClusterCloudWatchLogging cfg = true ∧ t ∈ cfg.EnableTypes) ∧
    (doEnableLogging c rc logTypesToEnable).2 = c.UpdateClusterConfigForLogging cfg ∧
    (∀ err, c.UpdateClusterConfigForLogging cfg = some err →
      (doEnableLogging c rc logTypesToEnable).2 = some err) ∧
    (c.UpdateClusterConfigForLogging cfg = none →
      (doEnableLogging c rc logTypesToEnable).2 = none) := by
  rw [doEnableLogging_decision c rc logTypesToEnable enableTypes rc' cfg currentlyEnabled
    hproc hload hcfg hregion hauth hprobe hlog]
  have hmem := mem_shouldEnable c cfg
  cases hupd : c.UpdateClusterConfigForLogging cfg <;>
    simp [hreq, hplan, hmem, List.count_cons]

/-- Witness for C7: the cluster has api enabled, all is requested with approval, and
the update call fails. -/
theorem doEnableLogging_applies_full_set_witness :
    (doEnableLogging (scenario {"api"} none (some "AccessDenied")) (scenarioCmd false [])
      (some ["all"])).1.count
      (Event.UpdateClusterConfigForLogging
        (scenarioCfg SupportedCloudWatchClusterLogTypes)) = 1 ∧
    (doEnableLogging (scenario {"api"} none (some "AccessDenied")) (scenarioCmd false [])
      (some ["all"])).2 = some "AccessDenied" :=
  have h := doEnableLogging_applies_full_set (scenario {"api"} none (some "AccessDenied"))
    (scenarioCmd false []) (some ["all"]) SupportedCloudWatchClusterLogTypes
    (scenarioCmd false SupportedCloudWatchClusterLogTypes)
    (scenarioCfg SupportedCloudWatchClusterLogTypes) {"api"}
    (by decide) (by decide) (by decide) (by decide) (by decide) (by decide) (by decide)
    (by decide) (by decide)
  ⟨h.1, h.2.2.2.2.1 "AccessDenied" (by decide)⟩

theorem describeTypesToEnable_eq (s : StringSet) :
    describeTypesToEnable s =
      if s = ∅ then "no types to enable"
      else "enable types: " ++ ", ".intercalate (StringSet.List s) := by
  unfold describeTypesToEnable
  by_cases h : s = ∅
  · subst h
    rfl
  · have hl : StringSet.List s ≠ [] := fun hl => h ((sets_List_eq_nil s).mp hl)
    rw [if_pos (List.length_pos.mpr hl), if_neg h]
    rfl

theorem describeTypesToDisable_eq (s : StringSet) :
    describeTypesToDisable s =
      if s = ∅ then "no types to disable"
      else "disable types: " ++ ", ".intercalate (StringSet.List s) := by
  unfold describeTypesToDisable
  by_cases h : s = ∅
  · subst h
    rfl
  · have hl : StringSet.List s ≠ [] := fun hl => h ((sets_List_eq_nil s).mp hl)
    rw [if_pos (List.length_pos.mpr hl), if_neg h]
    rfl

/-- C9, counterexample. With api enabled on the cluster and nothing requested, the
description names all five catalog entries as disables, whereas the current set minus
the desired set is api alone. With api enabled and all requested, the description
names all five entries as enables, whereas the desired set minus the current set leaves
api out. In both runs `updateRequired` is true. -/
theorem describe_is_not_the_delta :
    (updateRequired {"api"} (shouldEnable (scenario {"api"} none none) (scenarioCfg []))
      = true ∧
    doEnableLogging (scenario {"api"} none none) (scenarioCmd true []) (some []) =
      ([Event.Info "us-west-2", Event.LogObj (scenarioCfg []),
        Event.LogIntendedAction true "dev" "us-west-2" "no types to enable"
          "disable types: api, audit, authenticator, controllerManager, scheduler",
        Event.LogPlanModeWarning true], none) ∧
    StringSet.List (StringSet.Difference {"api"}
      (shouldEnable (scenario {"api"} none none) (scenarioCfg []))) = ["api"] ∧
    "disable types: api, audit, authenticator, controllerManager, scheduler"
      ≠ "disable types: api") ∧
    (updateRequired {"api"} (shouldEnable (scenario {"api"} none none)
      (scenarioCfg SupportedCloudWatchClusterLogTypes)) = true ∧
    doEnableLogging (scenario {"api"} none none) (scenarioCmd true []) (some ["all"]) =
      ([Event.Info "us-west-2", Event.LogObj (scenarioCfg SupportedCloudWatchClusterLogTypes),
        Event.LogIntendedAction true "dev" "us-west-2"
          "enable types: api, audit, authenticator, controllerManager, scheduler"
          "no types to disable",
        Event.LogPlanModeWarning true], none) ∧
    StringSet.List (StringSet.Difference
      (shouldEnable (scenario {"api"} none none)
        (scenarioCfg SupportedCloudWatchClusterLogTypes)) {"api"})
      = ["audit", "authenticator", "controllerManager", "scheduler"] ∧
    "enable types: api, audit, authenticator, controllerManager, scheduler"
      ≠ "enable types: audit, authenticator, controllerManager, scheduler") := by
  decide

/-- C9, amended: when the run reaches the decision with `updateRequired` true, the
description passed to `LogIntendedAction` lists as enables the whole of `shouldEnable`
(every requested log type, already enabled or not), sorted and joined by a comma and a
space, or says no types to enable when that set is empty; and lists as disables the whole
of `shouldDisable` (every catalog entry that is not requested), or says no types to
disable when that set is empty. Neither list is computed from the current set. -/
theorem doEnableLogging_describes_full_partition (c : Collaborators) (rc : ResourceCmd)
    (logTypesToEnable : Option (List String)) (enableTypes : List String)
    (rc' : ResourceCmd) (cfg : ClusterConfig) (currentlyEnabled : StringSet)
    (hproc : processTypesToEnable c.SupportedCloudWatchClusterLogTypes logTypesToEnable
      = .ok enableTypes)
    (hload : c.Load { rc with ClusterConfig :=
      c.AppendClusterCloudWatchLogTypes rc.ClusterConfig enableTypes } = .ok rc')
    (hcfg : cfg = c.SetClusterConfigDefaults rc'.ClusterConfig)
    (hregion : c.IsSupportedRegion cfg = true)
    (hauth : c.CheckAuth cfg = none)
    (hprobe : c.GetCurrentClusterConfigForLogging cfg = .ok currentlyEnabled)
    (hlog : c.LogObj cfg = none)
    (hreq : updateRequired currentlyEnabled (shouldEnable c cfg) = true) :
    Event.LogIntendedAction rc'.Plan cfg.Name cfg.Region
      (if shouldEnable c cfg = ∅ then "no types to enable"
        else "enable types: " ++ ", ".intercalate (StringSet.List (shouldEnable c cfg)))
      (if shouldDisable c cfg = ∅ then "no types to disable"
        else "disable types: " ++ ", ".intercalate (StringSet.List (shouldDisable c cfg)))
      ∈ (doEnableLogging c rc logTypesToEnable).1 ∧
    (∀ plan name region describeEnable describeDisable,
      Event.LogIntendedAction plan name region describeEnable describeDisable
        ∈ (doEnableLogging c rc logTypesToEnable).1 →
      describeEnable = describeTypesToEnable (shouldEnable c cfg) ∧
      describeDisable = describeTypesToDisable (shouldDisable c cfg)) ∧
    (StringSet.List (shouldEnable c cfg)).Sorted StrLE ∧
    (StringSet.List (shouldEnable c cfg)).Nodup ∧
    (∀ t, t ∈ StringSet.List (shouldEnable c cfg) ↔
      c.HasClusterCloudWatchLogging cfg = true ∧ t ∈ cfg.EnableTypes) ∧
    (StringSet.List (shouldDisable c cfg)).Sorted StrLE ∧
    (StringSet.List (shouldDisable c cfg)).Nodup ∧
    (∀ t, t ∈ StringSet.List (shouldDisable c cfg) ↔
      t ∈ c.SupportedCloudWatchClusterLogTypes ∧
      ¬ (c.HasClusterCloudWatchLogging cfg = true ∧ t ∈ cfg.EnableTypes)) := by
  refine ⟨?_, ?_, sets_List_sorted _, sets_List_nodup _, ?_, sets_List_sorted _,
    sets_List_nodup _, ?_⟩
  · rw [doEnableLogging_decision c rc logTypesToEnable enableTypes rc' cfg currentlyEnabled
      hproc hload hcfg hregion hauth hprobe hlog, ← describeTypesToEnable_eq,
      ← describeTypesToDisable_eq]
    cases hplan : rc'.Plan <;> cases hupd : c.UpdateClusterConfigForLogging cfg <;>
      simp [hreq]
  · rw [doEnableLogging_decision c rc logTypesToEnable enableTypes rc' cfg currentlyEnabled
      hproc hload hcfg hregion hauth hprobe hlog]
    intro plan name region describeEnable describeDisable
    cases hplan : rc'.Plan <;> cases hupd : c.UpdateClusterConfigForLogging cfg <;>
      simp [hreq]
  · intro t
    rw [sets_mem_List, mem_shouldEnable]
  · intro t
    rw [sets_mem_List, mem_shouldDisable, mem_shouldEnable]

/-- Witness for the amended C9: api is enabled, api and scheduler are requested with
approval. -/
theorem doEnableLogging_describes_full_partition_witness :
    Event.LogIntendedAction false "dev" "us-west-2" "enable types: api, scheduler"
      "disable types: audit, authenticator, controllerManager"
      ∈ (doEnableLogging (scenario {"api"} none none) (scenarioCmd false [])
        (some ["scheduler", "api"])).1 :=
  (doEnableLogging_describes_full_partition (scenario {"api"} none none)
    (scenarioCmd false []) (some ["scheduler", "api"]) ["api", "scheduler"]
    (scenarioCmd false ["api", "scheduler"]) (scenarioCfg ["api", "scheduler"]) {"api"}
    (by decide) (by decide) (by decide) (by decide) (by decide) (by decide) (by decide)
    (by decide)).1

end Eksctl
